import Mathlib

/-!
Verification development for the TeacherIntro media-capture and
scroll-synchronization controller.

The definitions below are a shallow embedding of the repository's
TypeScript source:

* `getSupportedMimeType`, `getSupportedAudioMimeType` — codec negotiation
  (`components/Teleprompter.tsx`, `components/HybridRecorder.tsx`), with the
  runtime capability probe `MediaRecorder.isTypeSupported` abstracted as an
  oracle `sup : String → Bool`.
* `TP` and its operations — the `Teleprompter` component's state
  (`useState`/`useRef` cells) and event handlers.  Asynchronous recorder
  callbacks (`ondataavailable`, `onstop`) are modelled as explicit events
  (`chunkArrives`, `fireOnStop`); a `stopPending` flag records that an
  `onstop` callback has been scheduled by `MediaRecorder.stop()` and has not
  yet run.  Blobs are byte lists (`List Nat`); `URL.createObjectURL` is a
  growing table `urls` indexed by `Nat` handles, and `MediaStream` handles
  are likewise `Nat`s drawn from a counter.
* `HRState` and its operations — the `HybridRecorder` audio component.
* `transcribeAudio`, `generateTeacherScript` — `services/geminiService.ts`,
  with the network call's outcome injected as `Except String (Option String)`
  (service error, or a response whose `text` field may be absent).
* `AppState` / `handleAudioReady` — `App.tsx`.
-/

namespace TeacherIntro

/-! ## Codec negotiation (Device Capability Negotiator) -/

/-- Candidate list of `Teleprompter.getSupportedMimeType`. -/
def videoTypes : List String :=
  ["video/mp4;codecs=avc1", "video/mp4", "video/webm;codecs=vp9,opus",
   "video/webm", "video/quicktime"]

/-- Candidate list of `HybridRecorder.getSupportedAudioMimeType`. -/
def audioTypes : List String :=
  ["audio/mp4", "audio/webm;codecs=opus", "audio/aac", "audio/wav"]

/-- The `for`/`if`/`return` loop shared by both negotiators: return the first
candidate the oracle reports as supported. -/
def firstSupported (sup : String → Bool) : List String → Option String
  | [] => none
  | t :: rest => if sup t then some t else firstSupported sup rest

/-- `Teleprompter.getSupportedMimeType`: first supported video candidate,
or `""` when none is supported. -/
def getSupportedMimeType (sup : String → Bool) : String :=
  match firstSupported sup videoTypes with
  | some t => t
  | none => ""

/-- `HybridRecorder.getSupportedAudioMimeType`: first supported audio
candidate, or the `"audio/wav"` fallback. -/
def getSupportedAudioMimeType (sup : String → Bool) : String :=
  match firstSupported sup audioTypes with
  | some t => t
  | none => "audio/wav"

/-! ## Teleprompter state -/

/-- Outcome of a `navigator.mediaDevices.getUserMedia` call. -/
inductive CamResult
  | ok
  | denied
  | otherErr
deriving DecidableEq

/-- One `MediaRecorder` object: the mime type captured by its closures and
whether its state is recording. -/
structure Recorder where
  mime : String
  live : Bool
deriving DecidableEq

/-- The `Teleprompter` component state: every `useState` cell and `useRef`
cell, plus bookkeeping for handles (`nextStream`, `acquisitions`, `urls`) and
the set of `MediaRecorder` objects created so far (`recorders`, with
`recRef` the index held by `mediaRecorderRef`). -/
structure TP where
  isScrolling : Bool
  speed : Rat
  showCamera : Bool
  isRecording : Bool
  recordedVideoUrl : Option Nat
  recordingTime : Nat
  playbackMode : Bool
  permissionDenied : Bool
  stream : Option Nat
  nextStream : Nat
  acquisitions : Nat
  recorders : List Recorder
  recRef : Option Nat
  chunks : List (List Nat)
  stopPending : Bool
  timerOn : Bool
  scrollPos : Rat
  lastTime : Option Rat
  containerPresent : Bool
  urls : List (List Nat × String)
deriving DecidableEq

/-- The component's state at mount. -/
def initTP : TP :=
  { isScrolling := false, speed := 40, showCamera := false, isRecording := false,
    recordedVideoUrl := none, recordingTime := 0, playbackMode := false,
    permissionDenied := false, stream := none, nextStream := 0, acquisitions := 0,
    recorders := [], recRef := none, chunks := [], stopPending := false,
    timerOn := false, scrollPos := 0, lastTime := none, containerPresent := true,
    urls := [] }

/-! ## Scroll engine -/

/-- `animateScroll`: one animation-frame tick.  When a previous tick time is
recorded, scrolling is on and the container is mounted, advance the position
by `speed * deltaSeconds`; in every case re-arm by recording the tick time. -/
def animateScroll (time : Rat) (s : TP) : TP :=
  let s' :=
    match s.lastTime with
    | some t0 =>
      if s.isScrolling && s.containerPresent then
        { s with scrollPos := s.scrollPos + s.speed * ((time - t0) / 1000) }
      else s
    | none => s
  { s' with lastTime := some time }

/-- `toggleScroll`. -/
def toggleScroll (s : TP) : TP := { s with isScrolling := !s.isScrolling }

/-- The speed-up button: `setSpeed(prev => Math.min(200, prev + 10))`. -/
def speedUp (s : TP) : TP := { s with speed := min 200 (s.speed + 10) }

/-- The speed-down button: `setSpeed(prev => Math.max(10, prev - 10))`. -/
def speedDown (s : TP) : TP := { s with speed := max 10 (s.speed - 10) }

/-- The `onScroll` handler: manual scrolling overrides the position only
while auto-scroll is off. -/
def manualScroll (q : Rat) (s : TP) : TP :=
  if s.isScrolling then s else { s with scrollPos := q }

/-! ## Camera acquisition (Permission & Device Session Manager) -/

/-- `startCamera`: reuse the held stream if there is one; otherwise request
hardware with outcome `cam`, returning the acquired handle (or `none` on
failure) together with the next state. -/
def startCamera (cam : CamResult) (s : TP) : Option Nat × TP :=
  let s0 := { s with permissionDenied := false }
  match s0.stream with
  | some h => (some h, { s0 with showCamera := true })
  | none =>
    match cam with
    | CamResult.ok =>
      (some s0.nextStream,
       { s0 with stream := some s0.nextStream, nextStream := s0.nextStream + 1,
                 acquisitions := s0.acquisitions + 1,
                 showCamera := true, playbackMode := false })
    | CamResult.denied => (none, { s0 with permissionDenied := true })
    | CamResult.otherErr => (none, s0)

/-- `stopCameraStreams`: stop all tracks and clear the handle. -/
def stopCameraStreams (s : TP) : TP :=
  { s with stream := none, showCamera := false }

/-- `toggleCameraVisibility`. -/
def toggleCameraVisibility (cam : CamResult) (s : TP) : TP :=
  if !s.showCamera then (startCamera cam s).2
  else if s.isRecording then { s with showCamera := false }
  else stopCameraStreams s

/-! ## Capture session (Capture Session Controller) -/

/-- The tail of `startRecording` once the stream lookup has finished:
clear the previous artifact and chunk buffer, negotiate a codec, and —
unless negotiation returned the empty sentinel — create and start a fresh
`MediaRecorder`, reset the scroll position and start the elapsed-time
timer. -/
def startRecordingWith (sup : String → Bool) (stOpt : Option Nat) (s1 : TP) : TP :=
  match stOpt with
  | none => s1
  | some _ =>
    let s2 := { s1 with recordedVideoUrl := none, playbackMode := false, chunks := [] }
    let mt := getSupportedMimeType sup
    if mt = "" then s2
    else
      { s2 with recorders := s2.recorders ++ [⟨mt, true⟩],
                recRef := some s2.recorders.length,
                isRecording := true, recordingTime := 0, isScrolling := true,
                scrollPos := 0, timerOn := true }

/-- `startRecording`: use the held stream, or acquire one via `startCamera`;
bail out if neither yields a stream. -/
def startRecording (sup : String → Bool) (cam : CamResult) (s : TP) : TP :=
  match s.stream with
  | some h => startRecordingWith sup (some h) s
  | none => startRecordingWith sup (startCamera cam s).1 (startCamera cam s).2

/-- `stopRecording`: request recorder finalization when the referenced
recorder is recording (scheduling its `onstop` callback), then clear the
recording flag, stop scrolling and stop the timer — unconditionally. -/
def stopRecording (s : TP) : TP :=
  let s1 :=
    match s.recRef with
    | some i =>
      match s.recorders[i]? with
      | some r =>
        if r.live then
          { s with recorders := s.recorders.set i { r with live := false },
                   stopPending := true }
        else s
      | none => s
    | none => s
  { s1 with isRecording := false, isScrolling := false, timerOn := false }

/-- The record button's `onClick`: dispatch on the recording status. -/
def recordClick (sup : String → Bool) (cam : CamResult) (s : TP) : TP :=
  if s.isRecording then stopRecording s else startRecording sup cam s

/-- The `ondataavailable` callback: buffer the chunk if it is non-empty. -/
def chunkArrives (d : List Nat) (s : TP) : TP :=
  if 0 < d.length then { s with chunks := s.chunks ++ [d] } else s

/-- The scheduled `onstop` callback: concatenate the buffered chunks into a
blob tagged with the recorder's mime type, create an object URL for it and
publish it as `recordedVideoUrl`. -/
def fireOnStop (s : TP) : TP :=
  if s.stopPending then
    match s.recRef with
    | some i =>
      match s.recorders[i]? with
      | some r =>
        { s with urls := s.urls ++ [(s.chunks.flatten, r.mime)],
                 recordedVideoUrl := some s.urls.length,
                 stopPending := false }
      | none => s
    | none => s
  else s

/-- The once-per-second elapsed-time tick. -/
def timerTick (s : TP) : TP :=
  if s.timerOn then { s with recordingTime := s.recordingTime + 1 } else s

/-- The DISCARD button: `setRecordedVideoUrl(null)`. -/
def discardArtifact (s : TP) : TP := { s with recordedVideoUrl := none }

/-- The blob currently published for playback/download. -/
def currentArtifact (s : TP) : Option (List Nat × String) :=
  s.recordedVideoUrl.bind (fun i => s.urls[i]?)

/-! ## Download filename -/

/-- Character-list test that `l` begins with `pat`. -/
def beginsWith : List Char → List Char → Bool
  | _, [] => true
  | [], _ :: _ => false
  | c :: cs, p :: ps => c == p && beginsWith cs ps

/-- Character-list test that `pat` occurs somewhere in `l` — JavaScript
`String.prototype.includes`. -/
def containsSeq (pat : List Char) : List Char → Bool
  | [] => pat.isEmpty
  | c :: cs => beginsWith (c :: cs) pat || containsSeq pat cs

/-- JavaScript `m.includes("mp4")` from `downloadVideo`. -/
def includesMp4 (m : String) : Bool := containsSeq "mp4".data m.data

/-- The extension picked by `downloadVideo`. -/
def extensionFor (sup : String → Bool) : String :=
  if includesMp4 (getSupportedMimeType sup) then "mp4" else "webm"

/-- `downloadVideo`: when an artifact is held, the suggested filename, with
`Date.now()` injected as `now`. -/
def downloadVideo (sup : String → Bool) (now : Nat) (s : TP) : Option String :=
  match s.recordedVideoUrl with
  | some _ =>
    some ("teacher-intro-landscape-" ++ toString now ++ "." ++ extensionFor sup)
  | none => none

/-- Modelled from the spec: a mime identifier names an mp4 container. -/
def mimeIsMp4Container (m : String) : Bool := beginsWith m.data "video/mp4".data

/-- Modelled from the spec: a mime identifier names a webm container. -/
def mimeIsWebmContainer (m : String) : Bool := beginsWith m.data "video/webm".data

/-! ## HybridRecorder (audio capture) -/

/-- The microphone permission state tracked by `HybridRecorder`. -/
inductive PermState
  | prompt
  | granted
  | denied
deriving DecidableEq

/-- The application status enum (`types.ts`). -/
inductive AppStatus
  | IDLE
  | RECORDING
  | TRANSCRIBING
  | GENERATING
  | ERROR
deriving DecidableEq

/-- The `HybridRecorder` component state.  `recorder` is `mediaRecorderRef`;
`stopPending` marks a scheduled `onstop`; `delivered` is the blob (bytes and
mime type) handed to `onAudioReady` after finalization, prior to base64
encoding. -/
structure HRState where
  permission : PermState
  status : AppStatus
  recorder : Option Recorder
  chunks : List (List Nat)
  stopPending : Bool
  delivered : Option (List Nat × String)
deriving DecidableEq

/-- `stopLiveRecording`: request finalization only when the held recorder is
in the recording state. -/
def stopLiveRecording (s : HRState) : HRState :=
  match s.recorder with
  | some r =>
    if r.live then
      { s with recorder := some { r with live := false }, stopPending := true }
    else s
  | none => s

/-- The audio `ondataavailable` callback. -/
def hrChunkArrives (d : List Nat) (s : HRState) : HRState :=
  if 0 < d.length then { s with chunks := s.chunks ++ [d] } else s

/-- The audio `onstop` callback: build the blob from the buffered chunks and
the mime type captured at recorder creation, and hand it off. -/
def hrFireOnStop (s : HRState) : HRState :=
  if s.stopPending then
    match s.recorder with
    | some r =>
      { s with delivered := some (s.chunks.flatten, r.mime), stopPending := false }
    | none => s
  else s

/-- The recorder held by `HRState` is absent or not recording. -/
def hrInactive (s : HRState) : Prop :=
  ∀ r, s.recorder = some r → r.live = false

/-- The success branch of `startLiveRecording` (secure context, capture API
available, microphone granted): permission becomes granted, a fresh
recorder is opened on the negotiated audio mime with the chunk buffer reset
to empty, and the status moves to RECORDING. -/
def startLiveRecordingOk (sup : String → Bool) (s : HRState) : HRState :=
  { s with permission := PermState.granted,
           recorder := some ⟨getSupportedAudioMimeType sup, true⟩,
           chunks := [],
           status := AppStatus.RECORDING }

/-- Deliver a list of audio chunks in order. -/
def hrArriveChunks (ds : List (List Nat)) (s : HRState) : HRState :=
  ds.foldl (fun st d => hrChunkArrives d st) s

/-! ## Generative text service (`services/geminiService.ts`) -/

/-- The message of the error thrown by `getClient` when no API key is set. -/
def apiKeyMissingMsg : String :=
  "API Key not found. Please ensure VITE_GOOGLE_AI_API_KEY is configured in Vercel."

/-- JavaScript `response.text?.trim() || \x22\x22`: absent text and
all-whitespace text both collapse to the empty string. -/
def trimOrEmpty : Option String → String
  | none => ""
  | some s => s.trim

/-- `transcribeAudio`: the client lookup and the `generateContent` outcome,
with thrown errors re-wrapped under the `Transcription failed` prefix. -/
def transcribeAudio (apiKey : Option String)
    (resp : Except String (Option String)) : Except String String :=
  match apiKey with
  | none => Except.error ("Transcription failed: " ++ apiKeyMissingMsg)
  | some _ =>
    match resp with
    | Except.error e => Except.error ("Transcription failed: " ++ e)
    | Except.ok t => Except.ok (trimOrEmpty t)

/-- `generateTeacherScript`: same shape, `Script generation failed` prefix. -/
def generateTeacherScript (apiKey : Option String)
    (resp : Except String (Option String)) : Except String String :=
  match apiKey with
  | none => Except.error ("Script generation failed: " ++ apiKeyMissingMsg)
  | some _ =>
    match resp with
    | Except.error e => Except.error ("Script generation failed: " ++ e)
    | Except.ok t => Except.ok (trimOrEmpty t)

/-! ## App shell (`App.tsx`) -/

/-- The `App` component state relevant to `handleAudioReady`. -/
structure AppState where
  bio : String
  script : String
  status : AppStatus
  errorMessage : Option String
deriving DecidableEq

/-- `handleAudioReady` with the transcription outcome injected: on success
append the transcription to a non-empty bio after a blank line (or adopt it
as the bio when the bio was empty) and return to IDLE; on failure record the
message and go to ERROR. -/
def handleAudioReady (resp : Except String String) (s : AppState) : AppState :=
  let s1 := { s with errorMessage := none, status := AppStatus.TRANSCRIBING }
  match resp with
  | Except.ok text =>
    { s1 with bio := if s1.bio = "" then text else s1.bio ++ "\n\n" ++ text,
              status := AppStatus.IDLE }
  | Except.error m => { s1 with errorMessage := some m, status := AppStatus.ERROR }

/-! ## Event system and reachability for the Teleprompter -/

/-- One user interaction or runtime callback on the `Teleprompter`
component. -/
inductive Step : TP → TP → Prop
  | click (sup : String → Bool) (cam : CamResult) (s : TP) :
      Step s (recordClick sup cam s)
  | scrollToggle (s : TP) : Step s (toggleScroll s)
  | camToggle (cam : CamResult) (s : TP) : Step s (toggleCameraVisibility cam s)
  | chunk (d : List Nat) (s : TP) : Step s (chunkArrives d s)
  | onStop (s : TP) : Step s (fireOnStop s)
  | tick (t : Rat) (s : TP) : Step s (animateScroll t s)
  | secTick (s : TP) : Step s (timerTick s)
  | faster (s : TP) : Step s (speedUp s)
  | slower (s : TP) : Step s (speedDown s)
  | drag (q : Rat) (s : TP) : Step s (manualScroll q s)
  | discard (s : TP) : Step s (discardArtifact s)

/-- States the component can reach from mount through its handlers and
callbacks. -/
def Reachable (s : TP) : Prop := Relation.ReflTransGen Step initTP s

/-- Number of `MediaRecorder` objects currently in the recording
state. -/
def liveCount (s : TP) : Nat := s.recorders.countP (fun r => r.live)

/-- The recorder invariant: any live recorder is the one currently
referenced, and the component knows it is recording. -/
def RecInv (s : TP) : Prop :=
  ∀ j r, s.recorders[j]? = some r → r.live = true →
    s.isRecording = true ∧ s.recRef = some j

/-! ## Auxiliary event sequences -/

/-- Deliver a list of chunks in order. -/
def arriveChunks (ds : List (List Nat)) (s : TP) : TP :=
  ds.foldl (fun st d => chunkArrives d st) s

/-- Run a list of animation-frame ticks in order. -/
def runTicks (ts : List Rat) (s : TP) : TP :=
  ts.foldl (fun st t => animateScroll t st) s

/-- The time of the last tick in the list, the given time if none. -/
def lastTick (t0 : Rat) : List Rat → Rat
  | [] => t0
  | t :: ts => lastTick t ts

/-! ## Concrete states and inputs used in closed instances -/

/-- A state holding a previously finalized artifact and a live stream. -/
def heldState : TP :=
  { initTP with stream := some 0, nextStream := 1, acquisitions := 1,
                urls := [([1, 2, 3], "video/webm")], recordedVideoUrl := some 0 }

/-- The artifact-holding state with the stream released. -/
def noStreamState : TP := { heldState with stream := none }

/-- A state whose referenced recorder is recording. -/
def recState : TP :=
  { initTP with isRecording := true, recorders := [⟨"video/webm", true⟩],
                recRef := some 0, stream := some 0, nextStream := 1 }

/-- An idle state in which the user toggled auto-scroll on by hand. -/
def idleScrolling : TP := { initTP with isScrolling := true }

/-- A capability oracle supporting only `"video/webm"`. -/
def supWebm : String → Bool := fun t => t == "video/webm"

/-- A capability oracle supporting nothing. -/
def supNone : String → Bool := fun _ => false

/-- A capability oracle supporting only `"video/quicktime"`. -/
def supQuicktime : String → Bool := fun t => t == "video/quicktime"

/-- A capability oracle supporting only `"audio/webm;codecs=opus"`. -/
def supOpus : String → Bool := fun t => t == "audio/webm;codecs=opus"

/-- Three chunks of sizes 10, 5 and 20 bytes. -/
def dsW : List (List Nat) :=
  [List.replicate 10 7, List.replicate 5 8, List.replicate 20 9]

/-- The `HybridRecorder` state before any recording. -/
def hrIdle : HRState :=
  { permission := PermState.prompt, status := AppStatus.IDLE, recorder := none,
    chunks := [], stopPending := false, delivered := none }

/-! # Theorems -/

/-! ## C10: transcription appends to the bio -/

/-- C10 (confirmed): a successful transcription never replaces an existing
bio: the new bio is the old bio, a blank-line separator and the
transcription when the old bio was non-empty, and the transcription alone
when it was empty; the status returns to IDLE. -/
theorem bio_appended (s : AppState) (text : String) :
    (handleAudioReady (Except.ok text) s).bio
      = (if s.bio = "" then text else s.bio ++ "\n\n" ++ text) ∧
    (handleAudioReady (Except.ok text) s).status = AppStatus.IDLE ∧
    ∃ suffix, (handleAudioReady (Except.ok text) s).bio = s.bio ++ suffix := by
  refine ⟨rfl, rfl, ?_⟩
  by_cases h : s.bio = ""
  · exact ⟨text, by simp [handleAudioReady, h]⟩
  · exact ⟨"\n\n" ++ text, by simp [handleAudioReady, h, String.append_assoc]⟩

/-! ## C9: failure surfacing of the text/speech collaborator -/

/-- C9 counterexample: an empty or missing model output is NOT surfaced as a
failure — both service functions return it as an ordinary empty-string
success. -/
theorem empty_output_not_failure :
    transcribeAudio (some "k") (Except.ok none) = Except.ok "" ∧
    generateTeacherScript (some "k") (Except.ok none) = Except.ok "" := by
  exact ⟨rfl, rfl⟩

/-- C9 as amended: service errors (including a missing API key) surface as
failures carrying the collaborator's message behind a fixed prefix, with no
retry (the functions consume exactly one service outcome); an empty or
missing model output is returned as an empty-string success, distinguishable
from non-empty output only by inspecting the string, not as a failure. -/
theorem service_error_surfaced (key e : String) (t : Option String) :
    transcribeAudio (some key) (Except.error e)
      = Except.error ("Transcription failed: " ++ e) ∧
    generateTeacherScript (some key) (Except.error e)
      = Except.error ("Script generation failed: " ++ e) ∧
    transcribeAudio none (Except.ok t)
      = Except.error ("Transcription failed: " ++ apiKeyMissingMsg) ∧
    transcribeAudio (some key) (Except.ok t) = Except.ok (trimOrEmpty t) ∧
    (t = none → transcribeAudio (some key) (Except.ok t) = Except.ok "") := by
  refine ⟨rfl, rfl, rfl, rfl, ?_⟩
  intro h
  subst h
  rfl

/-- Closed instance of `service_error_surfaced`. -/
theorem service_error_surfaced_witness :
    transcribeAudio (some "k") (Except.error "boom")
      = Except.error ("Transcription failed: " ++ "boom") ∧
    generateTeacherScript (some "k") (Except.error "boom")
      = Except.error ("Script generation failed: " ++ "boom") ∧
    transcribeAudio none (Except.ok none)
      = Except.error ("Transcription failed: " ++ apiKeyMissingMsg) ∧
    transcribeAudio (some "k") (Except.ok none) = Except.ok (trimOrEmpty none) ∧
    transcribeAudio (some "k") (Except.ok none) = Except.ok "" := by
  obtain ⟨h1, h2, h3, h4, h5⟩ := service_error_surfaced "k" "boom" none
  exact ⟨h1, h2, h3, h4, h5 rfl⟩

/-! ## C7: idempotent stream acquisition -/

/-- C7 (confirmed): when `startCamera` returns a stream handle, calling it
again without an intervening release returns the identical handle, keeps it
as the single held stream, and performs no second hardware acquisition. -/
theorem acquire_idempotent (s : TP) (cam cam' : CamResult) (h : Nat)
    (h1 : (startCamera cam s).1 = some h) :
    (startCamera cam' (startCamera cam s).2).1 = some h ∧
    (startCamera cam' (startCamera cam s).2).2.stream = some h ∧
    (startCamera cam' (startCamera cam s).2).2.acquisitions
      = (startCamera cam s).2.acquisitions := by
  rcases hs : s.stream with _ | h0
  · rcases cam with _ | _ | _
    · simp [startCamera, hs] at h1 ⊢
      exact h1
    · simp [startCamera, hs] at h1
    · simp [startCamera, hs] at h1
  · simp [startCamera, hs] at h1 ⊢
    exact h1

/-- Closed instance of `acquire_idempotent`. -/
theorem acquire_idempotent_witness :
    (startCamera CamResult.ok (startCamera CamResult.ok initTP).2).1 = some 0 ∧
    (startCamera CamResult.ok (startCamera CamResult.ok initTP).2).2.stream = some 0 ∧
    (startCamera CamResult.ok (startCamera CamResult.ok initTP).2).2.acquisitions
      = (startCamera CamResult.ok initTP).2.acquisitions :=
  acquire_idempotent initTP CamResult.ok CamResult.ok 0 rfl

/-! ## C1: fate of a prior artifact when a new recording starts -/

/-- C1 counterexample: with a prior artifact held and a live stream, a
`startRecording` that fails codec negotiation (so no recorder is ever
opened and nothing finalizes) has already dropped the prior artifact, which
the claim says must still be held. -/
theorem prior_artifact_lost :
    heldState.recordedVideoUrl = some 0 ∧
    (startRecording supNone CamResult.ok heldState).recorders = heldState.recorders ∧
    (startRecording supNone CamResult.ok heldState).isRecording = false ∧
    (startRecording supNone CamResult.ok heldState).recordedVideoUrl = none := by
  exact ⟨rfl, rfl, rfl, rfl⟩

/-- C1 as amended: if `startRecording` fails because no stream can be
acquired, the prior artifact survives; but as soon as a stream is held the
prior artifact reference is cleared at the start of the new session —
before codec negotiation, recorder creation or finalization — so a
post-stream failure (unsupported codec) leaves the prior artifact
discarded. -/
theorem prior_artifact_policy (s : TP) (sup : String → Bool) (cam : CamResult) :
    (s.stream = none → cam ≠ CamResult.ok →
      (startRecording sup cam s).recordedVideoUrl = s.recordedVideoUrl ∧
      (startRecording sup cam s).urls = s.urls) ∧
    (∀ st, s.stream = some st →
      (startRecording sup cam s).recordedVideoUrl = none) := by
  constructor
  · intro hn hcam
    rcases cam with _ | _ | _
    · exact absurd rfl hcam
    · simp [startRecording, hn, startCamera, startRecordingWith]
    · simp [startRecording, hn, startCamera, startRecordingWith]
  · intro st hs
    simp only [startRecording, hs, startRecordingWith]
    by_cases hmt : getSupportedMimeType sup = "" <;> simp [hmt]

/-- Closed instance of `prior_artifact_policy`. -/
theorem prior_artifact_policy_witness :
    ((startRecording supNone CamResult.denied noStreamState).recordedVideoUrl
        = noStreamState.recordedVideoUrl ∧
      (startRecording supNone CamResult.denied noStreamState).urls
        = noStreamState.urls) ∧
    (startRecording supNone CamResult.ok heldState).recordedVideoUrl = none :=
  ⟨(prior_artifact_policy noStreamState supNone CamResult.denied).1 rfl
      (by decide),
   (prior_artifact_policy heldState supNone CamResult.ok).2 0 rfl⟩

/-! ## Codec negotiation helpers -/

/-- The negotiation loop is the canonical first-match search. -/
theorem firstSupported_eq_find? (sup : String → Bool) :
    ∀ l : List String, firstSupported sup l = l.find? sup := by
  intro l
  induction l with
  | nil => rfl
  | cons t rest ih => cases h : sup t <;> simp [firstSupported, h, ih]

/-- The negotiation loop only reads the oracle on the candidate list. -/
theorem firstSupported_congr (sup sup' : String → Bool) :
    ∀ l : List String, (∀ t ∈ l, sup t = sup' t) →
      firstSupported sup l = firstSupported sup' l := by
  intro l
  induction l with
  | nil => intro _; rfl
  | cons t rest ih =>
    intro h
    have ht := h t (by simp)
    unfold firstSupported
    rw [ht]
    cases hs : sup' t <;> simp [hs]
    exact ih (fun x hx => h x (by simp [hx]))

/-- The negotiated video mime is the sentinel or one of the candidates. -/
theorem getSupportedMimeType_cases (sup : String → Bool) :
    getSupportedMimeType sup = "" ∨ getSupportedMimeType sup ∈ videoTypes := by
  unfold getSupportedMimeType
  cases h : firstSupported sup videoTypes with
  | none => exact Or.inl rfl
  | some t =>
    right
    rw [firstSupported_eq_find?] at h
    simpa using List.mem_of_find?_eq_some h

/-- Projections of `startCamera` that it never changes. -/
theorem startCamera_proj (cam : CamResult) (s : TP) :
    (startCamera cam s).2.recorders = s.recorders ∧
    (startCamera cam s).2.isRecording = s.isRecording ∧
    (startCamera cam s).2.recRef = s.recRef ∧
    (startCamera cam s).2.urls = s.urls ∧
    (startCamera cam s).2.recordedVideoUrl = s.recordedVideoUrl ∧
    (startCamera cam s).2.chunks = s.chunks ∧
    (startCamera cam s).2.stopPending = s.stopPending := by
  unfold startCamera
  rcases hs : s.stream with _ | h <;> rcases cam <;> simp [hs]

/-! ## C6: codec negotiation -/

/-- C6 (confirmed): both negotiators return the first candidate the oracle
supports; with no supported candidate the video negotiator returns the empty
sentinel and the audio negotiator the `"audio/wav"` fallback; negotiation is
deterministic in the reported capability set; and `startRecording` treats
the empty sentinel as a hard error, opening no recorder. -/
theorem codec_negotiation_spec :
    (∀ sup : String → Bool,
        getSupportedMimeType sup = (videoTypes.find? sup).getD "") ∧
    (∀ sup : String → Bool,
        getSupportedAudioMimeType sup = (audioTypes.find? sup).getD "audio/wav") ∧
    (∀ sup : String → Bool, (∀ t ∈ videoTypes, sup t = false) →
        getSupportedMimeType sup = "") ∧
    (∀ sup : String → Bool, (∀ t ∈ audioTypes, sup t = false) →
        getSupportedAudioMimeType sup = "audio/wav") ∧
    (∀ sup sup' : String → Bool, (∀ t ∈ videoTypes, sup t = sup' t) →
        getSupportedMimeType sup = getSupportedMimeType sup') ∧
    (∀ sup sup' : String → Bool, (∀ t ∈ audioTypes, sup t = sup' t) →
        getSupportedAudioMimeType sup = getSupportedAudioMimeType sup') ∧
    (∀ (s : TP) (sup : String → Bool) (cam : CamResult),
        getSupportedMimeType sup = "" →
        (startRecording sup cam s).recorders = s.recorders ∧
        (startRecording sup cam s).isRecording = s.isRecording) := by
  refine ⟨?_, ?_, ?_, ?_, ?_, ?_, ?_⟩
  · intro sup
    unfold getSupportedMimeType
    rw [firstSupported_eq_find?]
    cases h : videoTypes.find? sup <;> simp [h]
  · intro sup
    unfold getSupportedAudioMimeType
    rw [firstSupported_eq_find?]
    cases h : audioTypes.find? sup <;> simp [h]
  · intro sup h
    unfold getSupportedMimeType
    rw [firstSupported_eq_find?]
    rw [List.find?_eq_none.mpr (fun x hx => by simp [h x hx])]
  · intro sup h
    unfold getSupportedAudioMimeType
    rw [firstSupported_eq_find?]
    rw [List.find?_eq_none.mpr (fun x hx => by simp [h x hx])]
  · intro sup sup' h
    unfold getSupportedMimeType
    rw [firstSupported_congr sup sup' videoTypes h]
  · intro sup sup' h
    unfold getSupportedAudioMimeType
    rw [firstSupported_congr sup sup' audioTypes h]
  · intro s sup cam hmt
    rcases hs : s.stream with _ | h
    · simp only [startRecording, hs]
      cases hc : (startCamera cam s).1 with
      | none =>
        simp only [startRecordingWith]
        exact ⟨(startCamera_proj cam s).1, (startCamera_proj cam s).2.1⟩
      | some st =>
        simp only [startRecordingWith, hmt, if_pos rfl]
        exact ⟨(startCamera_proj cam s).1, (startCamera_proj cam s).2.1⟩
    · simp [startRecording, hs, startRecordingWith, hmt]

/-- Closed instance of `codec_negotiation_spec`. -/
theorem codec_negotiation_witness :
    getSupportedMimeType supNone = (videoTypes.find? supNone).getD "" ∧
    getSupportedMimeType supNone = "" ∧
    getSupportedAudioMimeType supNone = "audio/wav" ∧
    (startRecording supNone CamResult.ok initTP).recorders = initTP.recorders :=
  ⟨codec_negotiation_spec.1 supNone,
   codec_negotiation_spec.2.2.1 supNone (fun _ _ => rfl),
   codec_negotiation_spec.2.2.2.1 supNone (fun _ _ => rfl),
   (codec_negotiation_spec.2.2.2.2.2.2 initTP supNone CamResult.ok rfl).1⟩

/-! ## C8: download filename and extension -/

/-- C8 counterexample: when only `video/quicktime` is supported, the
extension is `webm` although the negotiated codec is not a webm container,
so the extension is not `webm` exactly when the container is webm. -/
theorem extension_quicktime_counterexample :
    getSupportedMimeType supQuicktime = "video/quicktime" ∧
    extensionFor supQuicktime = "webm" ∧
    mimeIsWebmContainer (getSupportedMimeType supQuicktime) = false := by
  exact ⟨rfl, by decide, by decide⟩

/-- C8 as amended: the suggested filename is
`teacher-intro-landscape-<timestamp>.<ext>` where `<ext>` is `mp4` exactly
when the negotiated mime contains `mp4` (equivalently, is an mp4 container)
and `webm` in every other case — including the non-webm `video/quicktime`
container — so `webm` follows from a webm container but not conversely. -/
theorem download_filename_form (sup : String → Bool) (now : Nat) (s : TP)
    (u : Nat) (h : s.recordedVideoUrl = some u) :
    downloadVideo sup now s
      = some ("teacher-intro-landscape-" ++ toString now ++ "." ++ extensionFor sup) ∧
    (extensionFor sup = "mp4" ↔ mimeIsMp4Container (getSupportedMimeType sup) = true) ∧
    (extensionFor sup = "webm" ∨ extensionFor sup = "mp4") ∧
    (mimeIsWebmContainer (getSupportedMimeType sup) = true →
      extensionFor sup = "webm") := by
  have hm' : getSupportedMimeType sup = "" ∨
      getSupportedMimeType sup = "video/mp4;codecs=avc1" ∨
      getSupportedMimeType sup = "video/mp4" ∨
      getSupportedMimeType sup = "video/webm;codecs=vp9,opus" ∨
      getSupportedMimeType sup = "video/webm" ∨
      getSupportedMimeType sup = "video/quicktime" := by
    rcases getSupportedMimeType_cases sup with hm | hm
    · exact Or.inl hm
    · simp only [videoTypes, List.mem_cons, List.not_mem_nil, or_false] at hm
      exact Or.inr hm
  refine ⟨by simp [downloadVideo, h], ?_⟩
  unfold extensionFor mimeIsMp4Container mimeIsWebmContainer
  rcases hm' with hm | hm | hm | hm | hm | hm <;> rw [hm] <;> refine ⟨?_, ?_, ?_⟩ <;> decide

/-- Closed instance of `download_filename_form`. -/
theorem download_filename_form_witness :
    downloadVideo supWebm 1700000000000 heldState
      = some ("teacher-intro-landscape-" ++ toString 1700000000000 ++ "."
          ++ extensionFor supWebm) ∧
    (extensionFor supWebm = "mp4" ↔
      mimeIsMp4Container (getSupportedMimeType supWebm) = true) ∧
    (extensionFor supWebm = "webm" ∨ extensionFor supWebm = "mp4") ∧
    (mimeIsWebmContainer (getSupportedMimeType supWebm) = true →
      extensionFor supWebm = "webm") :=
  download_filename_form supWebm 1700000000000 heldState 0 rfl

/-! ## C4: stop while not recording -/

/-- The invariant holds at mount. -/
theorem recInv_init : RecInv initTP := by
  intro j r hj hl
  simp [initTP] at hj

/-- C4 counterexample: with recording off but auto-scroll toggled on by the
user, `stopRecording` is not a no-op — it turns the scroll engine's running
flag off. -/
theorem stop_not_noop :
    idleScrolling.isRecording = false ∧
    idleScrolling.isScrolling = true ∧
    (stopRecording idleScrolling).isScrolling = false := by
  exact ⟨rfl, rfl, rfl⟩

/-- C4 as amended: `stopRecording` invoked while not RECORDING (in any state
satisfying the recorder invariant) changes no session state — status stays
off, no recorder is touched, no artifact is created — but it does
unconditionally clear the scroll engine's running flag and the timer; the
audio recorder's `stopLiveRecording` is a strict no-op when its recorder is
absent or inactive. -/
theorem stop_when_idle (s : TP) (h1 : s.isRecording = false) (h2 : RecInv s) :
    stopRecording s = { s with isScrolling := false, timerOn := false } ∧
    ∀ hs : HRState, hrInactive hs → stopLiveRecording hs = hs := by
  constructor
  · have hnl : ∀ i r, s.recRef = some i → s.recorders[i]? = some r →
        r.live = false := by
      intro i r _ hgr
      rcases hb : r.live
      · rfl
      · have := (h2 i r hgr hb).1
        rw [h1] at this
        exact absurd this (by simp)
    unfold stopRecording
    rcases hr : s.recRef with _ | i
    · simp only [hr]
      rw [h1]
    · rcases hg : s.recorders[i]? with _ | r
      · simp only [hr, hg]
        rw [h1]
      · have hlf : r.live = false := hnl i r hr hg
        simp only [hr, hg, hlf, Bool.false_eq_true, if_false]
        rw [h1]
  · intro hs hin
    unfold stopLiveRecording
    rcases hrec : hs.recorder with _ | r
    · simp only [hrec]
    · simp only [hrec, hin r hrec, Bool.false_eq_true, if_false]

/-! ## C3: the artifact is the concatenation of the chunks -/

/-- Chunk delivery appends the non-empty chunks in arrival order and touches
nothing else relevant to finalization. -/
theorem arriveChunks_spec (ds : List (List Nat)) :
    ∀ s : TP,
      (arriveChunks ds s).chunks
        = s.chunks ++ ds.filter (fun d => decide (0 < d.length)) ∧
      (arriveChunks ds s).recorders = s.recorders ∧
      (arriveChunks ds s).recRef = s.recRef ∧
      (arriveChunks ds s).urls = s.urls ∧
      (arriveChunks ds s).recordedVideoUrl = s.recordedVideoUrl ∧
      (arriveChunks ds s).stopPending = s.stopPending := by
  induction ds with
  | nil => intro s; simp [arriveChunks]
  | cons d ds ih =>
    intro s
    by_cases hd : 0 < d.length
    · have he : arriveChunks (d :: ds) s
          = arriveChunks ds { s with chunks := s.chunks ++ [d] } := by
        show arriveChunks ds (chunkArrives d s) = _
        rw [show chunkArrives d s = { s with chunks := s.chunks ++ [d] } by
          simp [chunkArrives, hd]]
      rw [he]
      obtain ⟨c1, c2, c3, c4, c5, c6⟩ := ih { s with chunks := s.chunks ++ [d] }
      refine ⟨?_, c2, c3, c4, c5, c6⟩
      rw [c1]
      simp [List.filter_cons, hd, List.append_assoc]
    · have he : arriveChunks (d :: ds) s = arriveChunks ds s := by
        show arriveChunks ds (chunkArrives d s) = _
        rw [show chunkArrives d s = s by simp [chunkArrives, hd]]
      rw [he]
      obtain ⟨c1, c2, c3, c4, c5, c6⟩ := ih s
      refine ⟨?_, c2, c3, c4, c5, c6⟩
      rw [c1]
      simp [List.filter_cons, hd]

/-- Dropping empty chunks does not change the concatenated bytes. -/
theorem flatten_filter_pos (ds : List (List Nat)) :
    (ds.filter (fun d => decide (0 < d.length))).flatten = ds.flatten := by
  induction ds with
  | nil => rfl
  | cons d ds ih =>
    by_cases hd : 0 < d.length
    · simp [List.filter_cons, hd, ih]
    · have hnil : d = [] := List.length_eq_zero.mp (by omega)
      subst hnil
      simp [List.filter_cons, ih]

/-- One `stopRecording` on a live referenced recorder. -/
theorem stopRecording_live (s : TP) (i : Nat) (r : Recorder)
    (hr : s.recRef = some i) (hg : s.recorders[i]? = some r)
    (hl : r.live = true) :
    stopRecording s
      = { s with recorders := s.recorders.set i { r with live := false },
                 stopPending := true, isRecording := false,
                 isScrolling := false, timerOn := false } := by
  unfold stopRecording
  simp only [hr, hg, hl, if_true]

/-- One `fireOnStop` with a scheduled callback and a referenced recorder. -/
theorem fireOnStop_ready (s : TP) (i : Nat) (r : Recorder)
    (hp : s.stopPending = true) (hr : s.recRef = some i)
    (hg : s.recorders[i]? = some r) :
    fireOnStop s
      = { s with urls := s.urls ++ [(s.chunks.flatten, r.mime)],
                 recordedVideoUrl := some s.urls.length,
                 stopPending := false } := by
  unfold fireOnStop
  simp only [hp, hr, hg, if_true]

/-- Audio chunk delivery appends the non-empty chunks in arrival order and
touches nothing else relevant to finalization. -/
theorem hrArriveChunks_spec (ds : List (List Nat)) :
    ∀ s : HRState,
      (hrArriveChunks ds s).chunks
        = s.chunks ++ ds.filter (fun d => decide (0 < d.length)) ∧
      (hrArriveChunks ds s).recorder = s.recorder ∧
      (hrArriveChunks ds s).stopPending = s.stopPending ∧
      (hrArriveChunks ds s).delivered = s.delivered := by
  induction ds with
  | nil => intro s; simp [hrArriveChunks]
  | cons d ds ih =>
    intro s
    by_cases hd : 0 < d.length
    · have he : hrArriveChunks (d :: ds) s
          = hrArriveChunks ds { s with chunks := s.chunks ++ [d] } := by
        show hrArriveChunks ds (hrChunkArrives d s) = _
        rw [show hrChunkArrives d s = { s with chunks := s.chunks ++ [d] } by
          simp [hrChunkArrives, hd]]
      rw [he]
      obtain ⟨c1, c2, c3, c4⟩ := ih { s with chunks := s.chunks ++ [d] }
      refine ⟨?_, c2, c3, c4⟩
      rw [c1]
      simp [List.filter_cons, hd, List.append_assoc]
    · have he : hrArriveChunks (d :: ds) s = hrArriveChunks ds s := by
        show hrArriveChunks ds (hrChunkArrives d s) = _
        rw [show hrChunkArrives d s = s by simp [hrChunkArrives, hd]]
      rw [he]
      obtain ⟨c1, c2, c3, c4⟩ := ih s
      refine ⟨?_, c2, c3, c4⟩
      rw [c1]
      simp [List.filter_cons, hd]

/-- One `stopLiveRecording` on a live recorder. -/
theorem stopLiveRecording_live (s : HRState) (r : Recorder)
    (hr : s.recorder = some r) (hl : r.live = true) :
    stopLiveRecording s
      = { s with recorder := some { r with live := false },
                 stopPending := true } := by
  unfold stopLiveRecording
  simp only [hr, hl, if_true]

/-- One audio `onstop` with a scheduled callback and a held recorder. -/
theorem hrFireOnStop_ready (s : HRState) (r : Recorder)
    (hp : s.stopPending = true) (hr : s.recorder = some r) :
    hrFireOnStop s
      = { s with delivered := some (s.chunks.flatten, r.mime),
                 stopPending := false } := by
  unfold hrFireOnStop
  simp only [hp, hr, if_true]

/-- C3 (confirmed): for any list of chunk arrivals, a session that starts on
a held stream with a successfully negotiated codec, receives the chunks in
order, stops and finalizes, publishes an artifact whose bytes are exactly
the concatenation of the chunks in arrival order, tagged with the session's
negotiated mime type; in particular its byte length is the sum of the chunk
sizes.  The same holds of the audio recorder: a session started by
`startLiveRecording`, fed the chunks in order, stopped and finalized,
delivers a blob that is exactly the concatenation of the chunks in arrival
order, tagged with the negotiated audio mime type. -/
theorem artifact_is_concat (s : TP) (sup : String → Bool) (cam : CamResult)
    (ds : List (List Nat)) (st : Nat) (hs : s.stream = some st)
    (hmt : getSupportedMimeType sup ≠ "") :
    currentArtifact
        (fireOnStop (stopRecording (arriveChunks ds (startRecording sup cam s))))
      = some (ds.flatten, getSupportedMimeType sup) ∧
    (currentArtifact
        (fireOnStop (stopRecording
          (arriveChunks ds (startRecording sup cam s))))).map
        (fun a => a.1.length)
      = some ((ds.map List.length).sum) ∧
    (∀ (supA : String → Bool) (hs0 : HRState) (es : List (List Nat)),
        (hrFireOnStop (stopLiveRecording
          (hrArriveChunks es (startLiveRecordingOk supA hs0)))).delivered
        = some (es.flatten, getSupportedAudioMimeType supA)) := by
  have haudio : ∀ (supA : String → Bool) (hs0 : HRState)
      (es : List (List Nat)),
      (hrFireOnStop (stopLiveRecording
        (hrArriveChunks es (startLiveRecordingOk supA hs0)))).delivered
      = some (es.flatten, getSupportedAudioMimeType supA) := by
    intro supA hs0 es
    obtain ⟨c1, c2, c3, c4⟩ :=
      hrArriveChunks_spec es (startLiveRecordingOk supA hs0)
    have hrec : (hrArriveChunks es (startLiveRecordingOk supA hs0)).recorder
        = some ⟨getSupportedAudioMimeType supA, true⟩ := c2
    have h5 := stopLiveRecording_live
      (hrArriveChunks es (startLiveRecordingOk supA hs0))
      ⟨getSupportedAudioMimeType supA, true⟩ hrec rfl
    have h6 := hrFireOnStop_ready
      (stopLiveRecording (hrArriveChunks es (startLiveRecordingOk supA hs0)))
      ⟨getSupportedAudioMimeType supA, false⟩
      (by rw [h5]) (by rw [h5])
    have hchunks : (stopLiveRecording
        (hrArriveChunks es (startLiveRecordingOk supA hs0))).chunks
        = es.filter (fun d => decide (0 < d.length)) := by
      rw [h5]
      show (hrArriveChunks es (startLiveRecordingOk supA hs0)).chunks = _
      rw [c1]
      simp [startLiveRecordingOk]
    rw [h6]
    show some ((stopLiveRecording
        (hrArriveChunks es (startLiveRecordingOk supA hs0))).chunks.flatten,
      getSupportedAudioMimeType supA) = _
    rw [hchunks, flatten_filter_pos]
  have h3 : startRecording sup cam s
      = { s with recordedVideoUrl := none, playbackMode := false, chunks := [],
                 recorders := s.recorders ++ [⟨getSupportedMimeType sup, true⟩],
                 recRef := some s.recorders.length,
                 isRecording := true, recordingTime := 0, isScrolling := true,
                 scrollPos := 0, timerOn := true } := by
    simp only [startRecording, hs, startRecordingWith]
    rw [if_neg hmt]
  have p_rec : (startRecording sup cam s).recorders
      = s.recorders ++ [⟨getSupportedMimeType sup, true⟩] := by rw [h3]
  have p_ref : (startRecording sup cam s).recRef = some s.recorders.length := by
    rw [h3]
  have p_chunks : (startRecording sup cam s).chunks = [] := by rw [h3]
  obtain ⟨c1, c2, c3, c4, c5, c6⟩ :=
    arriveChunks_spec ds (startRecording sup cam s)
  rw [p_chunks, List.nil_append] at c1
  rw [p_rec] at c2
  rw [p_ref] at c3
  have hlt : s.recorders.length
      < (arriveChunks ds (startRecording sup cam s)).recorders.length := by
    rw [c2]
    simp
  have hgB : (arriveChunks ds (startRecording sup cam s)).recorders[s.recorders.length]?
      = some ⟨getSupportedMimeType sup, true⟩ := by
    rw [c2]
    exact List.getElem?_concat_length _ _
  have h5 := stopRecording_live (arriveChunks ds (startRecording sup cam s))
    s.recorders.length ⟨getSupportedMimeType sup, true⟩ c3 hgB rfl
  have h6 := fireOnStop_ready
    (stopRecording (arriveChunks ds (startRecording sup cam s)))
    s.recorders.length ⟨getSupportedMimeType sup, false⟩
    (by rw [h5]) (by rw [h5]; exact c3)
    (by rw [h5]; exact List.getElem?_set_eq_of_lt _ hlt)
  have hchunks : (stopRecording (arriveChunks ds (startRecording sup cam s))).chunks
      = ds.filter (fun d => decide (0 < d.length)) := by
    rw [h5]
    exact c1
  have hart : currentArtifact
      (fireOnStop (stopRecording (arriveChunks ds (startRecording sup cam s))))
      = some (ds.flatten, getSupportedMimeType sup) := by
    rw [h6]
    show ((stopRecording (arriveChunks ds (startRecording sup cam s))).urls
        ++ [((stopRecording (arriveChunks ds (startRecording sup cam s))).chunks.flatten,
             getSupportedMimeType sup)])[
          (stopRecording (arriveChunks ds (startRecording sup cam s))).urls.length]?
      = some (ds.flatten, getSupportedMimeType sup)
    rw [List.getElem?_concat_length, hchunks, flatten_filter_pos]
  refine ⟨hart, ?_, haudio⟩
  rw [hart]
  simp [List.length_flatten]

/-- Closed instance of `artifact_is_concat`: three chunks of sizes 10, 5 and
20 bytes delivered in order yield an artifact of exactly 35 bytes, on the
video path and on the audio path with the negotiated
`audio/webm;codecs=opus` mime. -/
theorem artifact_is_concat_witness :
    currentArtifact
        (fireOnStop (stopRecording
          (arriveChunks dsW (startRecording supWebm CamResult.ok heldState))))
      = some (dsW.flatten, getSupportedMimeType supWebm) ∧
    (currentArtifact
        (fireOnStop (stopRecording
          (arriveChunks dsW (startRecording supWebm CamResult.ok heldState))))).map
        (fun a => a.1.length)
      = some ((dsW.map List.length).sum) ∧
    (hrFireOnStop (stopLiveRecording
        (hrArriveChunks dsW (startLiveRecordingOk supOpus hrIdle)))).delivered
      = some (dsW.flatten, getSupportedAudioMimeType supOpus) ∧
    (dsW.map List.length).sum = 35 ∧
    getSupportedMimeType supWebm = "video/webm" ∧
    getSupportedAudioMimeType supOpus = "audio/webm;codecs=opus" :=
  ⟨(artifact_is_concat heldState supWebm CamResult.ok dsW 0 rfl (by decide)).1,
   (artifact_is_concat heldState supWebm CamResult.ok dsW 0 rfl (by decide)).2.1,
   (artifact_is_concat heldState supWebm CamResult.ok dsW 0 rfl
      (by decide)).2.2 supOpus hrIdle dsW,
   by decide, rfl, rfl⟩

/-! ## C2: at most one live capture session -/

/-- A list whose satisfying positions all coincide has at most one
satisfying element. -/
theorem countP_le_one_of_unique {α : Type} (p : α → Bool) :
    ∀ l : List α,
      (∀ (i j : Nat) (a b : α), l[i]? = some a → l[j]? = some b →
        p a = true → p b = true → i = j) →
      l.countP p ≤ 1 := by
  intro l
  induction l with
  | nil => intro _; simp
  | cons x xs ih =>
    intro h
    by_cases hx : p x = true
    · have hxs : xs.countP p = 0 := by
        rw [List.countP_eq_zero]
        intro a ha hpa
        obtain ⟨k, hk⟩ := List.mem_iff_getElem?.mp ha
        have := h 0 (k + 1) x a (by simp) (by simpa using hk) hx hpa
        omega
      rw [List.countP_cons, hxs, hx]
      simp
    · have hxs := ih (fun (i j : Nat) (a b : α) hi hj pa pb => by
        have := h (i + 1) (j + 1) a b (by simpa using hi) (by simpa using hj)
          pa pb
        omega)
      have hx' : p x = false := by
        revert hx
        cases p x <;> simp
      rw [List.countP_cons, hx']
      simpa using hxs

/-- The recorder invariant bounds the number of live recorders by one. -/
theorem liveCount_le_one {s : TP} (inv : RecInv s) : liveCount s ≤ 1 := by
  apply countP_le_one_of_unique
  intro i j a b hi hj hpa hpb
  have h1 := inv i a hi hpa
  have h2 := inv j b hj hpb
  exact Option.some.inj (h1.2.symm.trans h2.2)

/-- The invariant only mentions three fields; transport it along operations
that keep them. -/
theorem recInv_transport {s s' : TP} (inv : RecInv s)
    (h1 : s'.recorders = s.recorders) (h2 : s'.isRecording = s.isRecording)
    (h3 : s'.recRef = s.recRef) : RecInv s' := by
  intro j r hj hl
  rw [h1] at hj
  obtain ⟨ha, hb⟩ := inv j r hj hl
  exact ⟨h2.trans ha, h3.trans hb⟩

/-- `stopRecording` leaves no recorder live. -/
theorem recInv_stop {s : TP} (inv : RecInv s) : RecInv (stopRecording s) := by
  intro j r hj hl
  exfalso
  rcases hr : s.recRef with _ | i
  · have hrecs : (stopRecording s).recorders = s.recorders := by
      unfold stopRecording
      simp only [hr]
    rw [hrecs] at hj
    have h2 := (inv j r hj hl).2
    rw [hr] at h2
    exact Option.noConfusion h2
  · rcases hg : s.recorders[i]? with _ | r0
    · have hrecs : (stopRecording s).recorders = s.recorders := by
        unfold stopRecording
        simp only [hr, hg]
      rw [hrecs] at hj
      have h2 := (inv j r hj hl).2
      rw [hr] at h2
      have hij : i = j := Option.some.inj h2
      rw [← hij] at hj
      rw [hg] at hj
      exact Option.noConfusion hj
    · by_cases hb : r0.live = true
      · have hrecs : (stopRecording s).recorders
            = s.recorders.set i { r0 with live := false } := by
          unfold stopRecording
          simp only [hr, hg, hb, if_true]
        rw [hrecs] at hj
        by_cases hij : i = j
        · subst hij
          obtain ⟨hilt, _⟩ := List.getElem?_eq_some.mp hg
          rw [List.getElem?_set_eq_of_lt _ hilt] at hj
          have hrr := Option.some.inj hj
          rw [← hrr] at hl
          exact Bool.noConfusion hl
        · rw [List.getElem?_set_ne hij] at hj
          have h2 := (inv j r hj hl).2
          rw [hr] at h2
          exact hij (Option.some.inj h2)
      · have hb' : r0.live = false := by
          revert hb
          cases r0.live <;> simp
        have hrecs : (stopRecording s).recorders = s.recorders := by
          unfold stopRecording
          simp only [hr, hg, hb']
          simp
        rw [hrecs] at hj
        have h2 := (inv j r hj hl).2
        rw [hr] at h2
        have hij : i = j := Option.some.inj h2
        rw [← hij, hg] at hj
        have hrr := Option.some.inj hj
        rw [← hrr] at hl
        exact hb hl

/-- A fresh session started with no live recorder satisfies the
invariant. -/
theorem recInv_startRecordingWith {s1 : TP} (sup : String → Bool)
    (stOpt : Option Nat) (_hrec : s1.isRecording = false)
    (hnolive : ∀ (j : Nat) (r : Recorder),
      s1.recorders[j]? = some r → r.live = false) :
    RecInv (startRecordingWith sup stOpt s1) := by
  rcases stOpt with _ | st
  · show RecInv s1
    intro j r hj hl
    exfalso
    have := hnolive j r hj
    rw [hl] at this
    exact Bool.noConfusion this
  · by_cases hmt : getSupportedMimeType sup = ""
    · have hred : startRecordingWith sup (some st) s1
          = { s1 with recordedVideoUrl := none, playbackMode := false,
                      chunks := [] } := by
        unfold startRecordingWith
        rw [if_pos hmt]
      rw [hred]
      intro j r hj hl
      exfalso
      have hj' : s1.recorders[j]? = some r := hj
      have := hnolive j r hj'
      rw [hl] at this
      exact Bool.noConfusion this
    · have hred : startRecordingWith sup (some st) s1
          = { s1 with recordedVideoUrl := none, playbackMode := false,
                      chunks := [],
                      recorders := s1.recorders
                        ++ [⟨getSupportedMimeType sup, true⟩],
                      recRef := some s1.recorders.length,
                      isRecording := true, recordingTime := 0,
                      isScrolling := true, scrollPos := 0, timerOn := true } := by
        unfold startRecordingWith
        rw [if_neg hmt]
      rw [hred]
      intro j r hj hl
      have hj' : (s1.recorders
          ++ [(⟨getSupportedMimeType sup, true⟩ : Recorder)])[j]? = some r := hj
      by_cases hjlt : j < s1.recorders.length
      · exfalso
        rw [List.getElem?_append_left hjlt] at hj'
        have := hnolive j r hj'
        rw [hl] at this
        exact Bool.noConfusion this
      · have hj2 : j = s1.recorders.length := by
          by_contra hne
          have hlen : (s1.recorders
              ++ [(⟨getSupportedMimeType sup, true⟩ : Recorder)]).length ≤ j := by
            simp only [List.length_append, List.length_cons, List.length_nil]
            omega
          rw [List.getElem?_eq_none hlen] at hj'
          exact Option.noConfusion hj'
        subst hj2
        exact ⟨rfl, rfl⟩

/-- `startRecording` from a non-recording invariant state preserves the
invariant. -/
theorem recInv_start {s : TP} (sup : String → Bool) (cam : CamResult)
    (hrec : s.isRecording = false) (inv : RecInv s) :
    RecInv (startRecording sup cam s) := by
  have hnolive : ∀ (j : Nat) (r : Recorder),
      s.recorders[j]? = some r → r.live = false := by
    intro j r hj
    rcases hb : r.live
    · rfl
    · have := (inv j r hj hb).1
      rw [hrec] at this
      exact Bool.noConfusion this
  unfold startRecording
  rcases hs : s.stream with _ | h
  · simp only [hs]
    apply recInv_startRecordingWith
    · rw [(startCamera_proj cam s).2.1]
      exact hrec
    · intro j r hj
      rw [(startCamera_proj cam s).1] at hj
      exact hnolive j r hj
  · simp only [hs]
    exact recInv_startRecordingWith sup (some h) hrec hnolive

/-- The record button preserves the invariant. -/
theorem recInv_click {s : TP} (sup : String → Bool) (cam : CamResult)
    (inv : RecInv s) : RecInv (recordClick sup cam s) := by
  unfold recordClick
  by_cases hb : s.isRecording = true
  · rw [if_pos hb]
    exact recInv_stop inv
  · rw [if_neg hb]
    have hb' : s.isRecording = false := by
      revert hb
      cases s.isRecording <;> simp
    exact recInv_start sup cam hb' inv

/-- `fireOnStop` does not touch the invariant's fields. -/
theorem fireOnStop_proj (s : TP) :
    (fireOnStop s).recorders = s.recorders ∧
    (fireOnStop s).isRecording = s.isRecording ∧
    (fireOnStop s).recRef = s.recRef := by
  unfold fireOnStop
  by_cases hp : s.stopPending = true
  · rcases hr : s.recRef with _ | i
    · simp [hp, hr]
    · rcases hg : s.recorders[i]? with _ | r <;> simp [hp, hr, hg]
  · have hp' : s.stopPending = false := by
      revert hp
      cases s.stopPending <;> simp
    simp [hp']

/-- An animation tick does not touch the invariant's fields. -/
theorem animateScroll_core (t : Rat) (s : TP) :
    (animateScroll t s).recorders = s.recorders ∧
    (animateScroll t s).isRecording = s.isRecording ∧
    (animateScroll t s).recRef = s.recRef := by
  unfold animateScroll
  rcases hl : s.lastTime with _ | t0
  · simp [hl]
  · simp only [hl]
    split <;> simp

/-- Every event of the component preserves the recorder invariant. -/
theorem recInv_preserved {s s' : TP} (hstep : Step s s') (inv : RecInv s) :
    RecInv s' := by
  cases hstep with
  | click sup cam s => exact recInv_click sup cam inv
  | scrollToggle s => exact recInv_transport inv rfl rfl rfl
  | camToggle cam s =>
    refine recInv_transport inv ?_ ?_ ?_ <;>
      · unfold toggleCameraVisibility stopCameraStreams
        split
        · first
            | exact (startCamera_proj cam s).1
            | exact (startCamera_proj cam s).2.1
            | exact (startCamera_proj cam s).2.2.1
        · split <;> rfl
  | chunk d s =>
    refine recInv_transport inv ?_ ?_ ?_ <;>
      · unfold chunkArrives
        split <;> rfl
  | onStop s =>
    exact recInv_transport inv (fireOnStop_proj s).1 (fireOnStop_proj s).2.1
      (fireOnStop_proj s).2.2
  | tick t s =>
    exact recInv_transport inv (animateScroll_core t s).1
      (animateScroll_core t s).2.1 (animateScroll_core t s).2.2
  | secTick s =>
    refine recInv_transport inv ?_ ?_ ?_ <;>
      · unfold timerTick
        split <;> rfl
  | faster s => exact recInv_transport inv rfl rfl rfl
  | slower s => exact recInv_transport inv rfl rfl rfl
  | drag q s =>
    refine recInv_transport inv ?_ ?_ ?_ <;>
      · unfold manualScroll
        split <;> rfl
  | discard s => exact recInv_transport inv rfl rfl rfl

/-- Every reachable state satisfies the recorder invariant. -/
theorem recInv_reachable {s : TP} (h : Reachable s) : RecInv s := by
  unfold Reachable at h
  induction h with
  | refl => exact recInv_init
  | tail hsteps hstep ih => exact recInv_preserved hstep ih

/-- C2 (confirmed): in every reachable state of the controller at most one
recorder is live, and a second press of the record button while recording
dispatches to `stopRecording` — the status check in the click handler makes
a second concurrent `startRecording` unreachable. -/
theorem single_live_session :
    (∀ s : TP, Reachable s → liveCount s ≤ 1) ∧
    (∀ (s : TP) (sup : String → Bool) (cam : CamResult),
        s.isRecording = true → recordClick sup cam s = stopRecording s) := by
  constructor
  · intro s h
    exact liveCount_le_one (recInv_reachable h)
  · intro s sup cam h
    unfold recordClick
    rw [if_pos h]

/-- Closed instance of `single_live_session`. -/
theorem single_live_session_witness :
    liveCount initTP ≤ 1 ∧
    recordClick supWebm CamResult.ok recState = stopRecording recState :=
  ⟨single_live_session.1 initTP Relation.ReflTransGen.refl,
   single_live_session.2 recState supWebm CamResult.ok rfl⟩

/-! ## C5: scroll advance is speed times elapsed time -/

/-- Fields a tick never changes, and the re-arming of the tick time. -/
theorem animateScroll_proj (t : Rat) (s : TP) :
    (animateScroll t s).isScrolling = s.isScrolling ∧
    (animateScroll t s).containerPresent = s.containerPresent ∧
    (animateScroll t s).speed = s.speed ∧
    (animateScroll t s).lastTime = some t := by
  unfold animateScroll
  rcases hl : s.lastTime with _ | t0
  · simp [hl]
  · simp only [hl]
    split <;> simp

/-- One armed tick while running advances by `speed * deltaSeconds`. -/
theorem animateScroll_pos (t t0 : Rat) (s : TP) (hl : s.lastTime = some t0)
    (h1 : s.isScrolling = true) (h2 : s.containerPresent = true) :
    (animateScroll t s).scrollPos = s.scrollPos + s.speed * ((t - t0) / 1000) := by
  unfold animateScroll
  simp [hl, h1, h2]

/-- Telescoping: a run of ticks advances by `speed * totalElapsed / 1000`,
however the interval is partitioned. -/
theorem runTicks_advance (ts : List Rat) :
    ∀ (s : TP) (t0 : Rat), s.isScrolling = true → s.containerPresent = true →
      s.lastTime = some t0 →
      (runTicks ts s).scrollPos
        = s.scrollPos + s.speed * ((lastTick t0 ts - t0) / 1000) := by
  induction ts with
  | nil =>
    intro s t0 _ _ _
    simp [runTicks, lastTick, sub_self]
  | cons t ts ih =>
    intro s t0 h1 h2 h3
    have hstep : runTicks (t :: ts) s = runTicks ts (animateScroll t s) := rfl
    obtain ⟨p1, p2, p3, p4⟩ := animateScroll_proj t s
    rw [hstep, ih (animateScroll t s) t (p1.trans h1) (p2.trans h2) p4,
        animateScroll_pos t t0 s h3 h1 h2, p3,
        show lastTick t0 (t :: ts) = lastTick t ts from rfl]
    ring

/-- C5 (confirmed): with the engine running and armed at time `t0`, any
sequence of ticks ending at time `T` advances the position by exactly
`speed * (T - t0) / 1000`, independently of the intermediate tick times;
a tick while not running re-arms the tick time but leaves the position
unchanged; and toggling the running flag twice restores the state, so a
pause/resume pair with no elapsed time produces zero net position change. -/
theorem scroll_delta_total :
    (∀ (s : TP) (t0 : Rat) (ts : List Rat),
        (runTicks ts { s with isScrolling := true, containerPresent := true,
                              lastTime := some t0 }).scrollPos
          = s.scrollPos + s.speed * ((lastTick t0 ts - t0) / 1000)) ∧
    (∀ (s : TP) (t : Rat),
        (animateScroll t { s with isScrolling := false }).scrollPos
          = s.scrollPos ∧
        (animateScroll t { s with isScrolling := false }).lastTime = some t) ∧
    (∀ s : TP, toggleScroll (toggleScroll s) = s) := by
  refine ⟨?_, ?_, ?_⟩
  · intro s t0 ts
    exact runTicks_advance ts _ t0 rfl rfl rfl
  · intro s t
    rcases hl : s.lastTime with _ | t1 <;> constructor <;> simp [animateScroll, hl]
  · intro s
    rcases s
    simp [toggleScroll]

/-- Closed instance of `stop_when_idle`. -/
theorem stop_when_idle_witness :
    stopRecording initTP = { initTP with isScrolling := false, timerOn := false } ∧
    stopLiveRecording hrIdle = hrIdle :=
  ⟨(stop_when_idle initTP rfl recInv_init).1,
   (stop_when_idle initTP rfl recInv_init).2 hrIdle
     (fun _ h => Option.noConfusion h)⟩

end TeacherIntro
